import Mathlib

/-!
Verification of the observability_performance repository's
time-series combination and windowing engine.

Shallow embedding conventions:
* instants (`datetime` values) are modelled as integers counting seconds
  since an arbitrary epoch; `timedelta(hours=h)` is addition of `3600*h`;
* metric values (`float`) are modelled as rationals `ℚ`;
* fallible operations return `Option`/`Except`.
-/

namespace ObsPerf

/-! ## Calendar arithmetic

`epochOfDate` converts a civil date-time to seconds since 1970-01-01T00:00:00Z,
using the standard days-from-civil algorithm.  It grounds concrete instants
such as `2024-01-15T00:00:00Z` appearing in the claims. -/

def isLeapYear (y : Int) : Bool :=
  (y % 4 == 0 && y % 100 != 0) || (y % 400 == 0)

def daysInMonth (y : Int) (m : Nat) : Nat :=
  match m with
  | 1 => 31
  | 2 => if isLeapYear y then 29 else 28
  | 3 => 31
  | 4 => 30
  | 5 => 31
  | 6 => 30
  | 7 => 31
  | 8 => 31
  | 9 => 30
  | 10 => 31
  | 11 => 30
  | 12 => 31
  | _ => 0

/-- Days from 1970-01-01 to the civil date `y-m-d` (days-from-civil algorithm). -/
def daysFromCivil (y : Int) (m : Nat) (d : Nat) : Int :=
  let y' : Int := if m <= 2 then y - 1 else y
  let era : Int := (if y' >= 0 then y' else y' - 399) / 400
  let yoe : Int := y' - era * 400
  let mp : Int := (Int.ofNat m + 9) % 12
  let doy : Int := (153 * mp + 2) / 5 + Int.ofNat d - 1
  let doe : Int := yoe * 365 + yoe / 4 - yoe / 100 + doy
  era * 146097 + doe - 719468

/-- Seconds since the Unix epoch for a civil date-time. -/
def epochOfDate (y : Int) (m d hh mi ss : Nat) : Int :=
  daysFromCivil y m d * 86400 + Int.ofNat hh * 3600 + Int.ofNat mi * 60 + Int.ofNat ss

/-! ## WindowPlanner — `observability_impact_analysis` (src/main.py)

The daily loop (main.py lines 374-400) keeps a mutable `current_date`,
records it as `range_start` for each of the `days` iterations, and advances
it by `timedelta(hours=24)`; `dailyStarts` reproduces that loop literally. -/

def hourSeconds : Int := 3600

/-- The loop of main.py lines 376-400: starting from `current`, record the
current instant and advance by 24 hours, `n` times. -/
def dailyStartsAux (current : Int) : Nat → List Int
  | 0 => []
  | n + 1 => current :: dailyStartsAux (current + 24 * hourSeconds) n

/-- The list of daily window starts produced for `(T0, days)`. -/
def dailyStarts (t0 : Int) (days : Nat) : List Int :=
  dailyStartsAux t0 days

/-- The hourly coverage window from main.py lines 453-459 (and the identical
spoke variant, lines 310-316): `hourly_start_dt = date_str - timedelta(hours=24)`
and `last_end_dt = date_str + timedelta(hours=24*(days-1))`. -/
def hourlyWindow (t0 : Int) (days : Nat) : Int × Int :=
  (t0 - 24 * hourSeconds, t0 + 24 * hourSeconds * (Int.ofNat days - 1))

/-- The four hourly queries issued by main.py lines 461-464, one per metric,
all over the same coverage window. -/
def hourlyQueries (t0 : Int) (days : Nat) : List (String × (Int × Int)) :=
  [ ("observability-bucket-size", hourlyWindow t0 days)
  , ("observability-cpu-consumption", hourlyWindow t0 days)
  , ("observability-memory-consumption", hourlyWindow t0 days)
  , ("observability-traffic-received", hourlyWindow t0 days) ]

theorem dailyStartsAux_length (c : Int) (n : Nat) :
    (dailyStartsAux c n).length = n := by
  induction n generalizing c with
  | zero => rfl
  | succ n ih => simp [dailyStartsAux, ih]

theorem dailyStartsAux_getD (c : Int) (n i : Nat) (h : i < n) :
    (dailyStartsAux c n).getD i 0 = c + 24 * hourSeconds * Int.ofNat i := by
  induction n generalizing c i with
  | zero => omega
  | succ n ih =>
    cases i with
    | zero => simp [dailyStartsAux]
    | succ i =>
      have hi : i < n := Nat.lt_of_succ_lt_succ h
      show (dailyStartsAux (c + 24 * hourSeconds) n).getD i 0 = _
      rw [ih (c + 24 * hourSeconds) i hi]
      have hsucc : Int.ofNat (i + 1) = Int.ofNat i + 1 := rfl
      rw [hsucc]
      ring

/-! ## SampleStore — `CSVCombiner` (src/csv_combiner.py)

`self.combined_data` is a Python dict from timestamp to value; assignment
`self.combined_data[timestamp] = value` (line 81) replaces the value in place
when the key is present and otherwise appends the pair, preserving insertion
order.  `combine_csv_files` (lines 107-126) then sorts the items by timestamp
and reports `duplicates_removed = total_read - unique_count`. -/

/-- One Python dict assignment `store[t] = v`. -/
def insertSample (store : List (Int × ℚ)) (t : Int) (v : ℚ) : List (Int × ℚ) :=
  if store.any (fun p => p.1 == t) then
    store.map (fun p => if p.1 == t then (t, v) else p)
  else
    store ++ [(t, v)]

/-- Ingest the successfully parsed rows, in order, into a store. -/
def ingestRows (store : List (Int × ℚ)) (rows : List (Int × ℚ)) : List (Int × ℚ) :=
  rows.foldl (fun s r => insertSample s r.1 r.2) store

/-- Insertion step of a stable sort by timestamp. -/
def insertByTs (p : Int × ℚ) : List (Int × ℚ) → List (Int × ℚ)
  | [] => [p]
  | q :: rest => if p.1 < q.1 then p :: q :: rest else q :: insertByTs p rest

/-- Model of `sorted(self.combined_data.items(), key=lambda x: x[0])` (line 114). -/
def sortByTs : List (Int × ℚ) → List (Int × ℚ)
  | [] => []
  | p :: rest => insertByTs p (sortByTs rest)

/-- Model of `combine_csv_files` on the successfully parsed rows of all files:
ingest everything into the (initially empty) store, then sort by timestamp. -/
def combineRows (rows : List (Int × ℚ)) : List (Int × ℚ) :=
  sortByTs (ingestRows [] rows)

/-- Model of `duplicates_removed = total_read - unique_count` (line 119). -/
def duplicatesRemoved (rows : List (Int × ℚ)) : Int :=
  Int.ofNat rows.length - Int.ofNat (combineRows rows).length

theorem insertSample_keys (s : List (Int × ℚ)) (t : Int) (v : ℚ) :
    (insertSample s t v).map Prod.fst =
      if s.any (fun p => p.1 == t) then s.map Prod.fst else s.map Prod.fst ++ [t] := by
  unfold insertSample
  split
  · rw [List.map_map]
    apply List.map_congr_left
    intro p _
    by_cases hp : p.1 = t <;> simp [hp]
  · simp

theorem insertSample_keys_mem (s : List (Int × ℚ)) (t : Int) (v : ℚ) (t' : Int) :
    t' ∈ (insertSample s t v).map Prod.fst ↔ t' = t ∨ t' ∈ s.map Prod.fst := by
  rw [insertSample_keys]
  split <;> rename_i h
  · simp only [List.any_eq_true, beq_iff_eq] at h
    obtain ⟨p, hp, hpt⟩ := h
    constructor
    · exact fun hm => Or.inr hm
    · rintro (rfl | hm)
      · exact hpt ▸ List.mem_map_of_mem Prod.fst hp
      · exact hm
  · simp [or_comm]

theorem insertSample_keys_nodup (s : List (Int × ℚ)) (t : Int) (v : ℚ)
    (h : (s.map Prod.fst).Nodup) : ((insertSample s t v).map Prod.fst).Nodup := by
  rw [insertSample_keys]
  split <;> rename_i hc
  · exact h
  · rw [List.nodup_append]
    refine ⟨h, List.nodup_singleton t, ?_⟩
    intro a ha hb
    simp only [List.mem_singleton] at hb
    subst hb
    simp only [List.any_eq_true, beq_iff_eq, not_exists] at hc
    simp only [List.mem_map] at ha
    obtain ⟨p, hp, hpt⟩ := ha
    exact hc p ⟨hp, hpt⟩

theorem insertSample_length (s : List (Int × ℚ)) (t : Int) (v : ℚ) :
    (insertSample s t v).length =
      if s.any (fun p => p.1 == t) then s.length else s.length + 1 := by
  unfold insertSample
  split <;> simp

theorem ingestRows_keys_mem (rows : List (Int × ℚ)) (s : List (Int × ℚ)) (t' : Int) :
    t' ∈ (ingestRows s rows).map Prod.fst ↔
      t' ∈ s.map Prod.fst ∨ t' ∈ rows.map Prod.fst := by
  induction rows generalizing s with
  | nil => simp [ingestRows]
  | cons r rest ih =>
    show t' ∈ (ingestRows (insertSample s r.1 r.2) rest).map Prod.fst ↔ _
    rw [ih]
    rw [insertSample_keys_mem]
    simp only [List.map_cons, List.mem_cons]
    tauto

theorem ingestRows_keys_nodup (rows : List (Int × ℚ)) (s : List (Int × ℚ))
    (h : (s.map Prod.fst).Nodup) : ((ingestRows s rows).map Prod.fst).Nodup := by
  induction rows generalizing s with
  | nil => exact h
  | cons r rest ih => exact ih _ (insertSample_keys_nodup s r.1 r.2 h)

theorem filter_key_map_replace (s : List (Int × ℚ)) (t : Int) (v : ℚ)
    (hnone : ∀ q ∈ s, q.1 ≠ t) :
    (s.map (fun p => if p.1 == t then (t, v) else p)).filter
      (fun p => p.1 == t) = [] := by
  induction s with
  | nil => rfl
  | cons q rest ih =>
    have hq := hnone q (List.mem_cons_self q rest)
    simp only [List.map_cons]
    rw [List.filter_cons]
    have : ((if q.1 == t then (t, v) else q).1 == t) = false := by
      simp [hq]
    rw [this]
    simp only [Bool.false_eq_true, if_false]
    exact ih (fun q' hq' => hnone q' (List.mem_cons_of_mem q hq'))

theorem insertSample_filter_key (s : List (Int × ℚ)) (t : Int) (v : ℚ)
    (hnd : (s.map Prod.fst).Nodup) :
    (insertSample s t v).filter (fun p => p.1 == t) = [(t, v)] := by
  unfold insertSample
  split <;> rename_i hc
  · induction s with
    | nil => simp at hc
    | cons p rest ih =>
      simp only [List.map_cons, List.nodup_cons] at hnd
      obtain ⟨hp_not, hnd_rest⟩ := hnd
      by_cases hp : p.1 = t
      · simp only [List.map_cons, hp, beq_self_eq_true, if_true]
        rw [List.filter_cons]
        simp only [beq_self_eq_true, if_true]
        have : (rest.map (fun p => if p.1 == t then (t, v) else p)).filter
            (fun p => p.1 == t) = [] := by
          apply filter_key_map_replace
          intro q hq hqt
          have hmem : q.1 ∈ rest.map Prod.fst := List.mem_map_of_mem Prod.fst hq
          rw [hqt, ← hp] at hmem
          exact hp_not hmem
        rw [this]
      · have hbeq : (p.1 == t) = false := by simp [hp]
        have hstep : (((p :: rest).map (fun p => if p.1 == t then (t, v) else p)).filter
            (fun p => p.1 == t)) =
            ((rest.map (fun p => if p.1 == t then (t, v) else p)).filter
              (fun p => p.1 == t)) := by
          simp [List.filter_cons, hbeq, hp]
        rw [hstep]
        exact ih hnd_rest
          (by simp only [List.any_cons, hbeq, Bool.false_or] at hc; exact hc)
  · rw [List.filter_append]
    have h1 : s.filter (fun p => p.1 == t) = [] := by
      rw [List.filter_eq_nil_iff]
      intro p hp hpt
      exact hc (List.any_eq_true.mpr ⟨p, hp, hpt⟩)
    rw [h1]
    simp

theorem insertByTs_perm (p : Int × ℚ) (l : List (Int × ℚ)) :
    (insertByTs p l).Perm (p :: l) := by
  induction l with
  | nil => exact List.Perm.refl _
  | cons q rest ih =>
    unfold insertByTs
    split
    · exact List.Perm.refl _
    · exact (ih.cons q).trans (List.Perm.swap p q rest)

theorem sortByTs_perm (l : List (Int × ℚ)) : (sortByTs l).Perm l := by
  induction l with
  | nil => exact List.Perm.refl _
  | cons p rest ih => exact (insertByTs_perm p (sortByTs rest)).trans (ih.cons p)

theorem insertByTs_sorted (p : Int × ℚ) (l : List (Int × ℚ))
    (h : l.Pairwise (fun a b => a.1 ≤ b.1)) :
    (insertByTs p l).Pairwise (fun a b => a.1 ≤ b.1) := by
  induction l with
  | nil => simp [insertByTs]
  | cons q rest ih =>
    rw [List.pairwise_cons] at h
    obtain ⟨hq, hrest⟩ := h
    unfold insertByTs
    split <;> rename_i hlt
    · rw [List.pairwise_cons]
      refine ⟨?_, List.pairwise_cons.mpr ⟨hq, hrest⟩⟩
      intro a ha
      rcases List.mem_cons.mp ha with rfl | ha
      · exact le_of_lt hlt
      · exact le_trans (le_of_lt hlt) (hq a ha)
    · rw [List.pairwise_cons]
      refine ⟨?_, ih hrest⟩
      intro a ha
      rcases List.mem_cons.mp ((insertByTs_perm p rest).mem_iff.mp ha) with rfl | ha
      · exact le_of_not_lt hlt
      · exact hq a ha

theorem sortByTs_sorted (l : List (Int × ℚ)) :
    (sortByTs l).Pairwise (fun a b => a.1 ≤ b.1) := by
  induction l with
  | nil => exact List.Pairwise.nil
  | cons p rest ih => exact insertByTs_sorted p (sortByTs rest) ih

theorem combineRows_length (rows : List (Int × ℚ)) :
    (combineRows rows).length = (rows.map Prod.fst).dedup.length := by
  have hkeys_nodup : ((ingestRows [] rows).map Prod.fst).Nodup :=
    ingestRows_keys_nodup rows [] (by simp)
  have hmem : ∀ a, a ∈ (ingestRows [] rows).map Prod.fst ↔
      a ∈ (rows.map Prod.fst).dedup := by
    intro a
    rw [List.mem_dedup, ingestRows_keys_mem]
    simp
  have hperm : ((ingestRows [] rows).map Prod.fst).Perm (rows.map Prod.fst).dedup :=
    (List.perm_ext_iff_of_nodup hkeys_nodup (List.nodup_dedup _)).mpr hmem
  calc (combineRows rows).length
      = (ingestRows [] rows).length := (sortByTs_perm _).length_eq
    _ = ((ingestRows [] rows).map Prod.fst).length := (List.length_map _ _).symm
    _ = (rows.map Prod.fst).dedup.length := hperm.length_eq

theorem ingestRows_append_of_nodup (rows : List (Int × ℚ)) (s : List (Int × ℚ))
    (h : (s.map Prod.fst ++ rows.map Prod.fst).Nodup) : ingestRows s rows = s ++ rows := by
  induction rows generalizing s with
  | nil => simp [ingestRows]
  | cons r rest ih =>
    have hdisj := (List.nodup_append.mp h).2.2
    have hnotin : r.1 ∉ s.map Prod.fst := by
      intro hmem
      exact hdisj hmem (by simp)
    have hany : s.any (fun p => p.1 == r.1) = false := by
      rw [List.any_eq_false]
      intro p hp
      simp only [beq_iff_eq]
      intro hpt
      exact hnotin (hpt ▸ List.mem_map_of_mem Prod.fst hp)
    show ingestRows (insertSample s r.1 r.2) rest = s ++ r :: rest
    rw [show insertSample s r.1 r.2 = s ++ [r] by unfold insertSample; rw [hany]; simp]
    rw [ih (s ++ [r]) (by simpa [List.append_assoc] using h)]
    simp

theorem pairwise_ne_of_keys_nodup (l : List (Int × ℚ))
    (hn : (l.map Prod.fst).Nodup) : l.Pairwise (fun a b => a.1 ≠ b.1) := by
  induction l with
  | nil => exact List.Pairwise.nil
  | cons p rest ih =>
    simp only [List.map_cons, List.nodup_cons] at hn
    refine List.pairwise_cons.mpr ⟨?_, ih hn.2⟩
    intro b hb hbeq
    exact hn.1 (hbeq ▸ List.mem_map_of_mem Prod.fst hb)

theorem pairwise_lt_of_le_ne (l : List (Int × ℚ))
    (hs : l.Pairwise (fun a b => a.1 ≤ b.1))
    (hn : l.Pairwise (fun a b => a.1 ≠ b.1)) :
    l.Pairwise (fun a b => a.1 < b.1) := by
  induction l with
  | nil => exact List.Pairwise.nil
  | cons p rest ih =>
    rw [List.pairwise_cons] at hs hn ⊢
    exact ⟨fun b hb => lt_of_le_of_ne (hs.1 b hb) (hn.1 b hb), ih hs.2 hn.2⟩

theorem sortByTs_eq_of_perm (l1 l2 : List (Int × ℚ)) (hp : l1.Perm l2)
    (h1 : (l1.map Prod.fst).Nodup) : sortByTs l1 = sortByTs l2 := by
  have hperm : (sortByTs l1).Perm (sortByTs l2) :=
    (sortByTs_perm l1).trans (hp.trans (sortByTs_perm l2).symm)
  have hk1 : ((sortByTs l1).map Prod.fst).Nodup :=
    (((sortByTs_perm l1).map Prod.fst).nodup_iff).mpr h1
  have hk2 : ((sortByTs l2).map Prod.fst).Nodup :=
    ((hperm.map Prod.fst).nodup_iff).mp hk1
  have hs1 : (sortByTs l1).Pairwise (fun a b => a.1 < b.1) :=
    pairwise_lt_of_le_ne _ (sortByTs_sorted l1) (pairwise_ne_of_keys_nodup _ hk1)
  have hs2 : (sortByTs l2).Pairwise (fun a b => a.1 < b.1) :=
    pairwise_lt_of_le_ne _ (sortByTs_sorted l2) (pairwise_ne_of_keys_nodup _ hk2)
  haveI : IsAntisymm (Int × ℚ) (fun a b => a.1 < b.1) :=
    ⟨fun _ _ hab hba => absurd hba (lt_asymm hab)⟩
  exact List.eq_of_perm_of_sorted hperm hs1 hs2

/-! ## StatisticsAggregator — growth percentage

`growth_rate = ((values[-1] - values[0]) / values[0]) * 100 if values[0] != 0 else 0`
(csv_combiner.py line 173; prometheus_client.py line 762).  Both call sites
guard against empty inputs before computing it, so `headD`/`getLastD` with
default `0` agree with `values[0]`/`values[-1]` on every reachable input. -/

def growthRate (values : List ℚ) : ℚ :=
  if values.headD 0 ≠ 0 then
    ((values.getLastD 0 - values.headD 0) / values.headD 0) * 100
  else 0

/-! ## Ingestor — display-name capture (csv_combiner.py lines 54-57)

Per row read (across all files, since `self.metric_name` persists in the
combiner object):
`if not self.metric_name: self.metric_name = row.get('metric_name', 'Unknown Metric')`.
A row is modelled by its `metric_name` cell: `none` when the column is absent,
`some s` when present with content `s`; Python string truthiness makes `""`
falsy. -/

def captureNameStep (current : String) (row : Option String) : String :=
  if current = "" then row.getD "Unknown Metric" else current

def captureName (rows : List (Option String)) : String :=
  rows.foldl captureNameStep ""

theorem captureName_foldl_of_ne (rows : List (Option String)) (c : String)
    (hc : c ≠ "") : rows.foldl captureNameStep c = c := by
  induction rows with
  | nil => rfl
  | cons r rest ih =>
    show rest.foldl captureNameStep (captureNameStep c r) = c
    rw [show captureNameStep c r = c by unfold captureNameStep; rw [if_neg hc]]
    exact ih

/-! ## PrometheusClient — empty-result handling (src/prometheus_client.py)

`get_bucket_usage_for_date_range` (lines 89-150): a successful HTTP response
whose `data.result` is empty becomes a `status: success` payload with an
`error_info` block (lines 131-148); a non-empty one is returned as is.
A transport or HTTP failure raises (lines 149-150) — that path is modelled
in the orchestration section below. -/

structure ErrorInfo where
  message : String
  suggestions : List String
  timeRange : String
deriving DecidableEq

structure QueryResult where
  status : String
  series : List (List (Int × ℚ))
  errorInfo : Option ErrorInfo
deriving DecidableEq

/-- The suggestion list of prometheus_client.py lines 139-145. -/
def bucketSuggestions : List String :=
  [ "Verify the bucket name is correct"
  , "Check if the bucket exists in NooBaa/OpenShift Data Foundation"
  , "Ensure bucket monitoring is enabled"
  , "Verify the date range contains data"
  , "Check if the time range is too far in the past (data retention)" ]

/-- Model of `get_bucket_usage_for_date_range` applied to a successful backend response
carrying `series` as its parsed `data.result`. -/
def getBucketUsageResult (bucketName startDate endDate : String)
    (series : List (List (Int × ℚ))) : QueryResult :=
  if series.isEmpty then
    { status := "success"
    , series := []
    , errorInfo := some
        { message := "No bucket usage data found for bucket \"" ++ bucketName ++
            "\" in the specified time range"
        , suggestions := bucketSuggestions
        , timeRange := startDate ++ " to " ++ endDate } }
  else
    { status := "success", series := series, errorInfo := none }

/-- Substring test on character lists. -/
def charsContain (pat l : List Char) : Bool :=
  l.tails.any (fun t => pat.isPrefixOf t)

/-- Whether `pat` occurs as a substring of `s`. -/
def strContains (s pat : String) : Bool :=
  charsContain pat.data s.data

/-- Model of `display_hourly_table_results` (prometheus_client.py lines 829-861),
returning the printed lines and the success flag.  The success branch
delegates the table body to `display_metric_usage_date_range_results`,
abstracted here as `renderTable`; the failure branch prints the two-line
diagnostic of lines 856-860 and returns `False` without raising. -/
def displayHourlyTableResults (renderTable : QueryResult → List String)
    (r : QueryResult) (title : String) : List String × Bool :=
  if r.status == "success" && !r.series.isEmpty then
    (renderTable r, true)
  else
    ( ("❌ Failed to retrieve hourly data for " ++ title) ::
        (match r.errorInfo with
         | some e => ["   Error: " ++ e.message]
         | none => ["   Status: " ++ r.status])
    , false )

/-- Model of `show_hourly_analysis` (main.py lines 173-209): exports are attempted
exactly when the table call succeeded. -/
def showHourlyAnalysisExports (renderTable : QueryResult → List String)
    (r : QueryResult) (title : String) : Bool :=
  (displayHourlyTableResults renderTable r title).2

/-! ## MetricQueryOrchestrator — the daily query loop and its failure behaviour

`observability_impact_analysis` (main.py lines 359-485) runs entirely inside
one `try`; the loop of lines 376-400 issues, for each window `i < days`, four
backend calls in order (metric index 0 = bucket usage, 1 = CPU, 2 = memory,
3 = network receive, lines 386-389).  Each `get_*_for_date_range` raises on a
transport/HTTP failure, and the `except` clause of lines 484-485 then abandons
the whole analysis, so no later call is issued and nothing is displayed.
A call is modelled by the exception it raises, if any:
`q (i, m) = some msg` when call `(i, m)` raises, `none` when it succeeds. -/

def plannedCalls (days : Nat) : List (Nat × Nat) :=
  (List.range days).flatMap (fun i => (List.range 4).map (fun m => (i, m)))

def issuedCallsAux (q : Nat × Nat → Option String) : List (Nat × Nat) → List (Nat × Nat)
  | [] => []
  | c :: rest =>
    c :: (match q c with
          | some _ => []
          | none => issuedCallsAux q rest)

/-- The backend calls actually issued by the daily loop: the planned calls up
to and including the first one that raises. -/
def issuedCalls (q : Nat × Nat → Option String) (days : Nat) : List (Nat × Nat) :=
  issuedCallsAux q (plannedCalls days)

/-- Whether the analysis reaches its display phase (main.py lines 405-482):
only when no backend call raised. -/
def analysisDisplays (q : Nat × Nat → Option String) (days : Nat) : Bool :=
  (plannedCalls days).all (fun c => (q c).isNone)

theorem issuedCallsAux_eq (q : Nat × Nat → Option String) (l : List (Nat × Nat)) :
    issuedCallsAux q l =
      l.takeWhile (fun c => (q c).isNone) ++
        (l.dropWhile (fun c => (q c).isNone)).take 1 := by
  induction l with
  | nil => rfl
  | cons c rest ih =>
    unfold issuedCallsAux
    cases hq : q c with
    | some e =>
      rw [List.takeWhile_cons, List.dropWhile_cons]
      simp [hq]
    | none =>
      rw [List.takeWhile_cons, List.dropWhile_cons]
      simp [hq, ih]

/-! ## main() — configuration validation (src/main.py lines 488-647)

The validation sequence before any backend interaction: missing token/url
(lines 543-552, exit 1), URL scheme (lines 555-561, exit 1), token length
(lines 564-570, exit 1), date parsing (line 574; a `ValueError` is caught at
lines 634-636, which print a message and fall through, so the process ends
with exit status 0), day-count positivity (lines 577-579, exit 1), day-label
count (lines 583-587, exit 1).  Only then is the `PrometheusClient`
constructed (line 596) and the first query issued. -/

structure Args where
  token : String
  url : String
  dateStr : String
  days : Int
  dayLabels : Option (List String)
deriving DecidableEq

inductive MainOutcome where
  /-- Exit via `sys.exit(code)` before the client is constructed. -/
  | exited (code : Nat)
  /-- the `ValueError` handler printed a message and `main` returned,
  ending the process with exit status 0, still before any backend call. -/
  | returnedEarly
  /-- validation passed; the client is constructed and queries begin. -/
  | startedAnalysis (dayLabels : Option (List String)) (days : Int)
deriving DecidableEq

structure DateTime where
  year : Int
  month : Nat
  day : Nat
  hour : Nat
  minute : Nat
  second : Nat
deriving DecidableEq

/-- Split a character list at every occurrence of `sep` (like
`str.split(sep)` for a one-character separator). -/
def splitOnChar (sep : Char) : List Char → List (List Char)
  | [] => [[]]
  | c :: rest =>
    match splitOnChar sep rest with
    | [] => [[]]
    | h :: t => if c = sep then [] :: h :: t else (c :: h) :: t

def strSplitOn (s : String) (sep : Char) : List String :=
  (splitOnChar sep s.data).map String.mk

/-- Parse a non-empty all-digit character list as a natural number. -/
def charsToNat (cs : List Char) : Option Nat :=
  if cs ≠ [] ∧ cs.all (fun c => c.isDigit) then
    some (cs.foldl (fun n c => n * 10 + (c.toNat - 48)) 0)
  else none

def parseNatField (s : String) (minLen maxLen lo hi : Nat) : Option Nat :=
  if minLen ≤ s.data.length ∧ s.data.length ≤ maxLen then
    match charsToNat s.data with
    | some n => if lo ≤ n ∧ n ≤ hi then some n else none
    | none => none
  else none

/-- Whether `pre` is a prefix of `s` (Python `str.startswith`). -/
def strStartsWith (s pre : String) : Bool :=
  pre.data.isPrefixOf s.data

/-- Modelled from Python `datetime.strptime(s, "%d/%m/%Y %H:%M:%S")`
(main.py line 574, stdlib behaviour): day and month are 1-2 digits within
range, the year exactly 4 digits, time fields 1-2 digits within range, and
the day must exist in the (leap-aware) month. -/
def strptimeDDMMYYYY (s : String) : Option DateTime :=
  match strSplitOn s ' ' with
  | [datePart, timePart] =>
    match strSplitOn datePart '/', strSplitOn timePart ':' with
    | [ds, ms, ys], [hs, mis, ss] =>
      match parseNatField ds 1 2 1 31, parseNatField ms 1 2 1 12,
            parseNatField ys 4 4 1 9999, parseNatField hs 1 2 0 23,
            parseNatField mis 1 2 0 59, parseNatField ss 1 2 0 59 with
      | some d, some m, some y, some hh, some mi, some sec =>
        if d ≤ daysInMonth (Int.ofNat y) m then
          some ⟨Int.ofNat y, m, d, hh, mi, sec⟩
        else none
      | _, _, _, _, _, _ => none
    | _, _ => none
  | _ => none

def defaultDayLabels : List String := ["", "extra-metrics", "new-alerts"]

/-- Model of `labels_to_use = day_labels if day_labels else ["", "extra-metrics", "new-alerts"]`
(main.py line 467; identically line 323 in the spoke variant).  Python
truthiness sends both `None` and an empty list to the default. -/
def labelsToUse (dayLabels : Option (List String)) : List String :=
  match dayLabels with
  | none => defaultDayLabels
  | some l => if l.isEmpty then defaultDayLabels else l

/-- The day-label validation of main.py lines 582-588: `if args.day_labels:`
is skipped for `None` (and for an empty list, by Python truthiness), and a
non-empty label list whose length differs from `--days` exits with status 1. -/
def validateLabels (dayLabels : Option (List String)) (days : Int) : MainOutcome :=
  match dayLabels with
  | none => .startedAnalysis none days
  | some ls =>
    if ls.isEmpty then .startedAnalysis none days
    else if (ls.length : Int) ≠ days then .exited 1
    else .startedAnalysis (some ls) days

/-- The checks performed after the date string parsed (main.py lines 577-588). -/
def afterDateChecks (a : Args) : MainOutcome :=
  if a.days ≤ 0 then .exited 1 else validateLabels a.dayLabels a.days

def runMain (a : Args) : MainOutcome :=
  if a.token = "" ∨ a.url = "" then .exited 1
  else if ¬ (strStartsWith a.url "http://" ∨ strStartsWith a.url "https://") then
    .exited 1
  else if a.token.length < 10 then .exited 1
  else
    match strptimeDDMMYYYY a.dateStr with
    | none => .returnedEarly
    | some _ => afterDateChecks a

/-- The process exit status when the run ends before backend interaction. -/
def earlyExitCode : MainOutcome → Option Nat
  | .exited c => some c
  | .returnedEarly => some 0
  | .startedAnalysis _ _ => none

def touchesBackend : MainOutcome → Bool
  | .startedAnalysis _ _ => true
  | _ => false

/-! ## Claim theorems -/

/-- Claim C1: for every start instant `T0` and day count `N ≥ 1`, the hourly
coverage window spans from exactly 24 hours before `T0` to exactly
`T0 + 24*(N-1)` hours; it is issued once per metric (each of the four hourly
queries carries that same window, and each metric occurs once); in particular
for `T0 = 2024-01-15T00:00:00Z` and `N = 3` it is
`[2024-01-14T00:00:00Z, 2024-01-17T00:00:00Z)`. -/
theorem claim_C1 (t0 : Int) (days : Nat) (h : 1 ≤ days) :
    (hourlyWindow t0 days).1 = t0 - 24 * hourSeconds ∧
    (hourlyWindow t0 days).2 = t0 + 24 * hourSeconds * (Int.ofNat days - 1) ∧
    (∀ q ∈ hourlyQueries t0 days, q.2 = hourlyWindow t0 days) ∧
    ((hourlyQueries t0 days).map Prod.fst).Nodup ∧
    hourlyWindow (epochOfDate 2024 1 15 0 0 0) 3 =
      (epochOfDate 2024 1 14 0 0 0, epochOfDate 2024 1 17 0 0 0) := by
  refine ⟨rfl, rfl, ?_, ?_, ?_⟩
  · intro q hq
    simp only [hourlyQueries, List.mem_cons, List.not_mem_nil, or_false] at hq
    rcases hq with rfl | rfl | rfl | rfl <;> rfl
  · have hmap : (hourlyQueries t0 days).map Prod.fst =
        [ "observability-bucket-size", "observability-cpu-consumption"
        , "observability-memory-consumption", "observability-traffic-received" ] := rfl
    rw [hmap]
    decide
  · decide

theorem claim_C1_witness :
    1 ≤ 3 ∧
    ((hourlyWindow 0 3).1 = 0 - 24 * hourSeconds ∧
     (hourlyWindow 0 3).2 = 0 + 24 * hourSeconds * (Int.ofNat 3 - 1) ∧
     (∀ q ∈ hourlyQueries 0 3, q.2 = hourlyWindow 0 3) ∧
     ((hourlyQueries 0 3).map Prod.fst).Nodup ∧
     hourlyWindow (epochOfDate 2024 1 15 0 0 0) 3 =
       (epochOfDate 2024 1 14 0 0 0, epochOfDate 2024 1 17 0 0 0)) :=
  ⟨by decide, claim_C1 0 3 (by decide)⟩

/-- Claim C2: the `i`-th daily window start (0-indexed) is exactly
`T0 + i*24h`, consecutive windows are contiguous (each start plus 24 hours is
the next start), and for `T0 = 2024-01-15T00:00:00Z`, `N = 3` the three starts
are Jan 15, Jan 16 and Jan 17 at midnight UTC. -/
theorem claim_C2 (t0 : Int) (days i : Nat) (hi : i < days) :
    (dailyStarts t0 days).getD i 0 = t0 + 24 * hourSeconds * Int.ofNat i ∧
    (∀ j, j + 1 < days →
      (dailyStarts t0 days).getD j 0 + 24 * hourSeconds =
        (dailyStarts t0 days).getD (j + 1) 0) ∧
    dailyStarts (epochOfDate 2024 1 15 0 0 0) 3 =
      [epochOfDate 2024 1 15 0 0 0, epochOfDate 2024 1 16 0 0 0,
       epochOfDate 2024 1 17 0 0 0] := by
  refine ⟨dailyStartsAux_getD t0 days i hi, ?_, by decide⟩
  intro j hj
  show (dailyStartsAux t0 days).getD j 0 + 24 * hourSeconds =
    (dailyStartsAux t0 days).getD (j + 1) 0
  rw [dailyStartsAux_getD t0 days j (by omega),
      dailyStartsAux_getD t0 days (j + 1) hj]
  have hsucc : Int.ofNat (j + 1) = Int.ofNat j + 1 := rfl
  rw [hsucc]
  ring

theorem claim_C2_witness :
    1 < 3 ∧
    ((dailyStarts 0 3).getD 1 0 = 0 + 24 * hourSeconds * Int.ofNat 1 ∧
     (∀ j, j + 1 < 3 →
       (dailyStarts 0 3).getD j 0 + 24 * hourSeconds =
         (dailyStarts 0 3).getD (j + 1) 0) ∧
     dailyStarts (epochOfDate 2024 1 15 0 0 0) 3 =
       [epochOfDate 2024 1 15 0 0 0, epochOfDate 2024 1 16 0 0 0,
        epochOfDate 2024 1 17 0 0 0]) :=
  ⟨by decide, claim_C2 0 3 1 (by decide)⟩

/-- Claim C3: inserting `(t, v1)` then `(t, v2)` into a store with distinct
keys leaves exactly one sample at `t`, holding `v2`; combining `N` parsed rows
with `K` distinct timestamps yields exactly `K` samples, and the reported
duplicates-removed count is `N - K`. -/
theorem claim_C3 (s : List (Int × ℚ)) (t : Int) (v1 v2 : ℚ)
    (rows : List (Int × ℚ)) (hnd : (s.map Prod.fst).Nodup) :
    (insertSample (insertSample s t v1) t v2).filter (fun p => p.1 == t) =
      [(t, v2)] ∧
    (combineRows rows).length = (rows.map Prod.fst).dedup.length ∧
    duplicatesRemoved rows =
      Int.ofNat rows.length - Int.ofNat (rows.map Prod.fst).dedup.length := by
  refine ⟨?_, combineRows_length rows, ?_⟩
  · exact insertSample_filter_key _ t v2 (insertSample_keys_nodup s t v1 hnd)
  · unfold duplicatesRemoved
    rw [combineRows_length]

theorem claim_C3_witness :
    (([] : List (Int × ℚ)).map Prod.fst).Nodup ∧
    ((insertSample (insertSample [] 0 1) 0 2).filter (fun p => p.1 == 0) =
       [((0 : Int), (2 : ℚ))] ∧
     (combineRows [((0 : Int), (1 : ℚ)), (0, 2), (5, 3)]).length =
       (([((0 : Int), (1 : ℚ)), (0, 2), (5, 3)]).map Prod.fst).dedup.length ∧
     duplicatesRemoved [((0 : Int), (1 : ℚ)), (0, 2), (5, 3)] =
       Int.ofNat ([((0 : Int), (1 : ℚ)), (0, 2), (5, 3)]).length -
         Int.ofNat (([((0 : Int), (1 : ℚ)), (0, 2), (5, 3)]).map Prod.fst).dedup.length) :=
  ⟨by decide, claim_C3 [] 0 1 2 [(0, 1), (0, 2), (5, 3)] (by decide)⟩

/-- Claim C4 counterexample: the two insertion sequences `[(0,1), (0,2)]` and
`[(0,2), (0,1)]` contain the same set of (timestamp, value) insertions, yet
last-write-wins makes the combined outputs differ (`[(0,2)]` vs `[(0,1)]`),
so the result is not independent of insertion order. -/
theorem counterexample_C4 :
    ([((0 : Int), (1 : ℚ)), (0, 2)]).Perm [((0 : Int), (2 : ℚ)), (0, 1)] ∧
    combineRows [((0 : Int), (1 : ℚ)), (0, 2)] ≠
      combineRows [((0 : Int), (2 : ℚ)), (0, 1)] := by
  constructor
  · decide
  · decide

/-- Claim C4 (amended): when the inserted timestamps are pairwise distinct,
the combined series is the same for any insertion order; and in all cases —
for every insertion list `l`, duplicate timestamps included — the combined
output is in non-decreasing timestamp order. -/
theorem claim_C4 (l1 l2 : List (Int × ℚ)) (hperm : l1.Perm l2)
    (hnd : (l1.map Prod.fst).Nodup) (l : List (Int × ℚ)) :
    combineRows l1 = combineRows l2 ∧
    (combineRows l).Pairwise (fun a b => a.1 ≤ b.1) := by
  have h2 : (l2.map Prod.fst).Nodup := ((hperm.map Prod.fst).nodup_iff).mp hnd
  have e1 : ingestRows [] l1 = l1 := by
    simpa using ingestRows_append_of_nodup l1 [] (by simpa using hnd)
  have e2 : ingestRows [] l2 = l2 := by
    simpa using ingestRows_append_of_nodup l2 [] (by simpa using h2)
  constructor
  · unfold combineRows
    rw [e1, e2]
    exact sortByTs_eq_of_perm l1 l2 hperm hnd
  · unfold combineRows
    exact sortByTs_sorted _

theorem claim_C4_witness :
    ([((5 : Int), (1 : ℚ)), (3, 2)]).Perm [((3 : Int), (2 : ℚ)), (5, 1)] ∧
    (([((5 : Int), (1 : ℚ)), (3, 2)]).map Prod.fst).Nodup ∧
    (combineRows [((5 : Int), (1 : ℚ)), (3, 2)] =
       combineRows [((3 : Int), (2 : ℚ)), (5, 1)] ∧
     (combineRows [((0 : Int), (1 : ℚ)), (0, 2), (7, 4), (0, 3)]).Pairwise
       (fun a b => a.1 ≤ b.1)) :=
  ⟨by decide, by decide,
   claim_C4 [(5, 1), (3, 2)] [(3, 2), (5, 1)] (by decide) (by decide)
     [(0, 1), (0, 2), (7, 4), (0, 3)]⟩

/-- Claim C5 counterexample: in a two-window run, a backend failure on the
very first call (window 0, bucket-usage metric) leaves that single call as the
only one issued — the remaining 7 window/metric calls are never made and the
display phase is skipped, contrary to the claim that a failure affects only
its own window/metric. -/
theorem counterexample_C5 :
    issuedCalls (fun c => if c = (0, 0) then some "HTTPError" else none) 2 =
      [(0, 0)] ∧
    plannedCalls 2 =
      [(0, 0), (0, 1), (0, 2), (0, 3), (1, 0), (1, 1), (1, 2), (1, 3)] ∧
    analysisDisplays (fun c => if c = (0, 0) then some "HTTPError" else none) 2 =
      false := by
  refine ⟨?_, ?_, ?_⟩ <;> decide

/-- Claim C5 (amended): a raised backend-query exception aborts the whole
analysis rather than only its window/metric: the calls issued are exactly the
planned calls up to and including the first raising one, and results are
displayed only when no call raised. -/
theorem claim_C5 (q : Nat × Nat → Option String) (days : Nat) :
    issuedCalls q days =
      (plannedCalls days).takeWhile (fun c => (q c).isNone) ++
        ((plannedCalls days).dropWhile (fun c => (q c).isNone)).take 1 ∧
    (analysisDisplays q days = true ↔ ∀ c ∈ plannedCalls days, q c = none) := by
  refine ⟨issuedCallsAux_eq q _, ?_⟩
  simp [analysisDisplays, List.all_eq_true, Option.isNone_iff_eq_none]

/-- Claim C6 counterexample: for an empty backend result the printed
diagnostic block carries the error message only — no printed line contains
any of the configured suggestions, so the rendered report does not include
the suggestion list. -/
theorem counterexample_C6 :
    ((getBucketUsageResult "observability" "2024-01-14T00:00:00Z"
        "2024-01-17T00:00:00Z" []).errorInfo.map ErrorInfo.suggestions).getD []
      = bucketSuggestions ∧
    bucketSuggestions ≠ [] ∧
    ((displayHourlyTableResults (fun _ => [])
        (getBucketUsageResult "observability" "2024-01-14T00:00:00Z"
          "2024-01-17T00:00:00Z" [])
        "Hourly").1.any
      (fun line => bucketSuggestions.any (fun sug => strContains line sug)))
      = false := by
  refine ⟨?_, ?_, ?_⟩ <;> decide

/-- Claim C6 (amended): a successful backend range query with zero series
yields status `success`, an empty series list and an `error_info` whose
suggestions list is non-empty; the renderer then prints a two-line diagnostic
block carrying the error message (the suggestions stay in the result but are
not printed) and returns `False` normally instead of raising, so the exports
are skipped and the run continues with the next metric/window. -/
theorem claim_C6 (bucketName sd ed title : String)
    (renderTable : QueryResult → List String) :
    (getBucketUsageResult bucketName sd ed []).status = "success" ∧
    (getBucketUsageResult bucketName sd ed []).series = [] ∧
    ((getBucketUsageResult bucketName sd ed []).errorInfo.map
        ErrorInfo.suggestions).getD [] = bucketSuggestions ∧
    bucketSuggestions ≠ [] ∧
    displayHourlyTableResults renderTable (getBucketUsageResult bucketName sd ed [])
        title =
      ( [ "❌ Failed to retrieve hourly data for " ++ title
        , "   Error: " ++ ("No bucket usage data found for bucket \"" ++
            bucketName ++ "\" in the specified time range") ]
      , false ) ∧
    showHourlyAnalysisExports renderTable (getBucketUsageResult bucketName sd ed [])
        title = false := by
  refine ⟨rfl, rfl, rfl, by decide, ?_, ?_⟩
  · rfl
  · rfl

/-- Claim C7: the growth statistic is `(last - first) / first * 100` when the
first value is non-zero and exactly `0` when the first value is zero (the
division is guarded, never performed in that case); in particular
`[0, 5]` yields growth `0`. -/
theorem claim_C7 (values : List ℚ) (h : values ≠ []) :
    (values.headD 0 = 0 → growthRate values = 0) ∧
    (values.headD 0 ≠ 0 →
      growthRate values =
        ((values.getLastD 0 - values.headD 0) / values.headD 0) * 100) ∧
    growthRate [0, 5] = 0 := by
  refine ⟨?_, ?_, by decide⟩
  · intro h0
    unfold growthRate
    rw [if_neg (not_not_intro h0)]
  · intro h0
    unfold growthRate
    rw [if_pos h0]

theorem claim_C7_witness :
    ([(1 : ℚ), 3] ≠ []) ∧
    ((([(1 : ℚ), 3]).headD 0 = 0 → growthRate [(1 : ℚ), 3] = 0) ∧
     (([(1 : ℚ), 3]).headD 0 ≠ 0 →
       growthRate [(1 : ℚ), 3] =
         ((([(1 : ℚ), 3]).getLastD 0 - ([(1 : ℚ), 3]).headD 0) /
           ([(1 : ℚ), 3]).headD 0) * 100) ∧
     growthRate [0, 5] = 0) :=
  ⟨by decide, claim_C7 [1, 3] (by decide)⟩

/-- Claim C9 counterexample: when the first row lacks the `metric_name` field
and the second row supplies `"Foo"`, the captured name is `"Unknown Metric"`
(fixed by the first row), not `"Foo"` — so a row before the first occurrence
of the field does determine the name, contrary to the claim. -/
theorem counterexample_C9 :
    captureName [none, some "Foo"] = "Unknown Metric" ∧
    captureName [none, some "Foo"] ≠ "Foo" := by
  refine ⟨?_, ?_⟩ <;> decide

/-- Claim C9 (amended): the display name is decided by the first row while the
name is still unset: a row lacking the field fixes it to `"Unknown Metric"`, a
row supplying a non-empty name fixes that name, a row whose field is present
but empty leaves it undetermined for later rows; once non-empty it is never
overwritten by later rows. -/
theorem claim_C9 (rows rest : List (Option String)) (n : String) (hn : n ≠ "") :
    (captureName rows ≠ "" → captureName (rows ++ rest) = captureName rows) ∧
    captureName (none :: rest) = "Unknown Metric" ∧
    captureName (some n :: rest) = n ∧
    captureName (some "" :: rest) = captureName rest := by
  refine ⟨?_, ?_, ?_, ?_⟩
  · intro hne
    unfold captureName at hne ⊢
    rw [List.foldl_append]
    exact captureName_foldl_of_ne rest _ hne
  · show rest.foldl captureNameStep (captureNameStep "" none) = _
    rw [show captureNameStep "" none = "Unknown Metric" from rfl]
    exact captureName_foldl_of_ne rest _ (by decide)
  · show rest.foldl captureNameStep (captureNameStep "" (some n)) = n
    rw [show captureNameStep "" (some n) = n from rfl]
    exact captureName_foldl_of_ne rest _ hn
  · rfl

theorem claim_C9_witness :
    ("Baz" ≠ "") ∧
    ((captureName [some "Foo"] ≠ "" →
       captureName ([some "Foo"] ++ [some "Bar"]) = captureName [some "Foo"]) ∧
     captureName (none :: [some "Bar"]) = "Unknown Metric" ∧
     captureName (some "Baz" :: [some "Bar"]) = "Baz" ∧
     captureName (some "" :: [some "Bar"]) = captureName [some "Bar"]) :=
  ⟨by decide, claim_C9 [some "Foo"] [some "Bar"] "Baz" (by decide)⟩

def c8BadArgs : Args :=
  { token := "sha256~0123456789abcdef"
  , url := "https://prometheus-k8s.example.com"
  , dateStr := "not-a-date"
  , days := 0
  , dayLabels := none }

/-- Claim C8 counterexample: an invocation with a non-positive day count but a
malformed date string stops before any backend interaction, yet with exit
status 0, not the claimed non-zero status — the `ValueError` handler
(main.py lines 634-636) prints a message and returns without `sys.exit`. -/
theorem counterexample_C8 :
    c8BadArgs.days ≤ 0 ∧
    runMain c8BadArgs = .returnedEarly ∧
    earlyExitCode (runMain c8BadArgs) = some 0 ∧
    touchesBackend (runMain c8BadArgs) = false := by
  refine ⟨?_, ?_, ?_, ?_⟩ <;> decide

/-- Claim C8 (amended): whenever the day-label count differs from the day
count or the day count is non-positive, the run never reaches the backend (no
client constructed, no query issued); and provided the date string parses, it
exits with status 1 — with a malformed date string it instead returns through
the `ValueError` handler, ending with exit status 0. -/
theorem afterDateChecks_of_bad (a : Args)
    (hbad : a.days ≤ 0 ∨
      ∃ ls, a.dayLabels = some ls ∧ ls ≠ [] ∧ (ls.length : Int) ≠ a.days) :
    afterDateChecks a = .exited 1 := by
  unfold afterDateChecks
  by_cases hdays : a.days ≤ 0
  · rw [if_pos hdays]
  · rw [if_neg hdays]
    rcases hbad with hd | ⟨ls, hls, hne, hlen⟩
    · exact absurd hd hdays
    · rw [hls]
      show (if ls.isEmpty then MainOutcome.startedAnalysis none a.days
        else if (ls.length : Int) ≠ a.days then MainOutcome.exited 1
        else MainOutcome.startedAnalysis (some ls) a.days) = MainOutcome.exited 1
      have hemp : ls.isEmpty = false := by
        cases ls with
        | nil => exact absurd rfl hne
        | cons x xs => rfl
      rw [hemp]
      rw [if_neg Bool.false_ne_true]
      rw [if_pos hlen]

theorem claim_C8 (a : Args)
    (hbad : a.days ≤ 0 ∨
      ∃ ls, a.dayLabels = some ls ∧ ls ≠ [] ∧ (ls.length : Int) ≠ a.days) :
    touchesBackend (runMain a) = false ∧
    ((strptimeDDMMYYYY a.dateStr).isSome → runMain a = .exited 1) := by
  have hmain : runMain a = .exited 1 ∨
      (runMain a = .returnedEarly ∧ strptimeDDMMYYYY a.dateStr = none) := by
    unfold runMain
    by_cases h1 : a.token = "" ∨ a.url = ""
    · rw [if_pos h1]
      exact Or.inl rfl
    · rw [if_neg h1]
      by_cases h2 : strStartsWith a.url "http://" ∨ strStartsWith a.url "https://"
      · rw [if_neg (not_not_intro h2)]
        by_cases h3 : a.token.length < 10
        · rw [if_pos h3]
          exact Or.inl rfl
        · rw [if_neg h3]
          cases hdt : strptimeDDMMYYYY a.dateStr with
          | none => exact Or.inr ⟨rfl, rfl⟩
          | some dt => exact Or.inl (afterDateChecks_of_bad a hbad)
      · rw [if_pos h2]
        exact Or.inl rfl
  rcases hmain with hm | ⟨hm, hnone⟩
  · exact ⟨by rw [hm]; rfl, fun _ => hm⟩
  · refine ⟨by rw [hm]; rfl, fun hsome => ?_⟩
    rw [hnone] at hsome
    simp at hsome

def c8WitnessArgs : Args :=
  { token := "sha256~0123456789abcdef"
  , url := "https://prometheus-k8s.example.com"
  , dateStr := "15/01/2024 00:00:00"
  , days := 3
  , dayLabels := some ["Baseline", "Config A"] }

theorem claim_C8_witness :
    (c8WitnessArgs.days ≤ 0 ∨
      ∃ ls, c8WitnessArgs.dayLabels = some ls ∧ ls ≠ [] ∧
        (ls.length : Int) ≠ c8WitnessArgs.days) ∧
    (touchesBackend (runMain c8WitnessArgs) = false ∧
     ((strptimeDDMMYYYY c8WitnessArgs.dateStr).isSome →
       runMain c8WitnessArgs = .exited 1)) :=
  ⟨Or.inr ⟨["Baseline", "Config A"], rfl, by decide, by decide⟩,
   claim_C8 c8WitnessArgs
     (Or.inr ⟨["Baseline", "Config A"], rfl, by decide, by decide⟩)⟩

/-- Claim C10: when the caller supplies no day labels (and the configuration
is otherwise valid), validation passes for any day count `N > 0` — the
labels-must-match-days rule never fires for the default — and the hourly
rendering uses the fixed 3-element default label list
`["", "extra-metrics", "new-alerts"]`, independent of `N`; hence for `N ≠ 3`
the number of rendered day labels differs from `N`. -/
theorem claim_C10 (a : Args)
    (hnone : a.dayLabels = none)
    (htok1 : a.token ≠ "") (htok2 : 10 ≤ a.token.length)
    (hurl1 : a.url ≠ "")
    (hurl2 : strStartsWith a.url "http://" ∨ strStartsWith a.url "https://")
    (hdate : (strptimeDDMMYYYY a.dateStr).isSome)
    (hdays : 0 < a.days) :
    runMain a = .startedAnalysis none a.days ∧
    labelsToUse none = defaultDayLabels ∧
    (labelsToUse none).length = 3 ∧
    (a.days ≠ 3 → ((labelsToUse none).length : Int) ≠ a.days) := by
  refine ⟨?_, rfl, rfl, ?_⟩
  · unfold runMain
    rw [if_neg (by push_neg; exact ⟨htok1, hurl1⟩)]
    rw [if_neg (not_not_intro hurl2)]
    rw [if_neg (by omega)]
    obtain ⟨dt, hdt⟩ := Option.isSome_iff_exists.mp hdate
    rw [hdt]
    unfold afterDateChecks
    rw [if_neg (by omega)]
    rw [hnone]
    rfl
  · intro h3
    have hlen : (labelsToUse none).length = 3 := rfl
    rw [hlen]
    omega

def c10WitnessArgs : Args :=
  { token := "sha256~0123456789abcdef"
  , url := "https://prometheus-k8s.example.com"
  , dateStr := "15/01/2024 00:00:00"
  , days := 5
  , dayLabels := none }

theorem claim_C10_witness :
    (c10WitnessArgs.dayLabels = none ∧ c10WitnessArgs.token ≠ "" ∧
     10 ≤ c10WitnessArgs.token.length ∧ c10WitnessArgs.url ≠ "" ∧
     (strStartsWith c10WitnessArgs.url "http://" ∨
       strStartsWith c10WitnessArgs.url "https://") ∧
     (strptimeDDMMYYYY c10WitnessArgs.dateStr).isSome ∧
     0 < c10WitnessArgs.days) ∧
    (runMain c10WitnessArgs = .startedAnalysis none c10WitnessArgs.days ∧
     labelsToUse none = defaultDayLabels ∧
     (labelsToUse none).length = 3 ∧
     (c10WitnessArgs.days ≠ 3 →
       ((labelsToUse none).length : Int) ≠ c10WitnessArgs.days)) :=
  ⟨⟨rfl, by decide, by decide, by decide, by decide, by decide, by decide⟩,
   claim_C10 c10WitnessArgs rfl (by decide) (by decide) (by decide)
     (by decide) (by decide) (by decide)⟩

end ObsPerf
